import Mathlib

/- Verification of the tdl client bootstrap layer (core/tclient/tclient.go),
   the extension command helpers, and the upload walker, over a shallow
   embedding of the Go sources. Durations are modelled as Int values in
   nanoseconds, matching time.Duration. The float64 arithmetic inside the
   backoff computation is modelled over the exact rationals; the Go
   conversion time.Duration(f) truncates toward zero, which on the
   nonnegative values arising in these computations is the floor. -/

namespace backoff

/-- Embeds ExponentialBackOff from github.com/cenkalti/backoff/v4 (an
external dependency of the repository), the state underlying newBackoff in
core/tclient/tclient.go. The startTime field is represented by passing the
elapsed time since Reset to each call, and the random source by passing the
drawn value from the unit interval to each call. -/
structure ExponentialBackOff where
  initialInterval : Int
  randomizationFactor : ℚ
  multiplier : ℚ
  maxInterval : Int
  maxElapsedTime : Int
  currentInterval : Int
deriving DecidableEq

/-- Embeds NewExponentialBackOff from cenkalti/backoff/v4: the library
default values (500ms initial interval, randomization factor 0.5,
multiplier 1.5, 60s interval ceiling, 15min elapsed budget), with Reset
setting currentInterval to initialInterval. -/
def NewExponentialBackOff : ExponentialBackOff :=
  { initialInterval := 500000000,
    randomizationFactor := 1/2,
    multiplier := 3/2,
    maxInterval := 60000000000,
    maxElapsedTime := 900000000000,
    currentInterval := 500000000 }

/-- Embeds getRandomValueFromInterval from cenkalti/backoff/v4: with
delta = randomizationFactor * currentInterval, returns a value drawn from
the range [currentInterval - delta, currentInterval + delta] as
minInterval + random * (maxInterval - minInterval + 1), converted to a
Duration (floor on these nonnegative values). -/
def getRandomValueFromInterval (randomizationFactor random : ℚ) (currentInterval : Int) : Int :=
  if randomizationFactor = 0 then currentInterval
  else
    ⌊((currentInterval : ℚ) - randomizationFactor * (currentInterval : ℚ)) +
      random * (((currentInterval : ℚ) + randomizationFactor * (currentInterval : ℚ)) -
        ((currentInterval : ℚ) - randomizationFactor * (currentInterval : ℚ)) + 1)⌋

/-- Embeds incrementCurrentInterval from cenkalti/backoff/v4: cap the
current interval at maxInterval once multiplying would overflow it,
otherwise multiply by the multiplier. -/
def incrementCurrentInterval (b : ExponentialBackOff) : ExponentialBackOff :=
  if (b.maxInterval : ℚ) / b.multiplier ≤ (b.currentInterval : ℚ) then
    { b with currentInterval := b.maxInterval }
  else
    { b with currentInterval := ⌊(b.currentInterval : ℚ) * b.multiplier⌋ }

/-- Embeds NextBackOff from cenkalti/backoff/v4: draw the jittered next
interval, advance the current interval, then return Stop (none) when the
elapsed time plus the drawn interval exceeds a nonzero MaxElapsedTime, and
the drawn interval otherwise. -/
def nextBackOff (b : ExponentialBackOff) (elapsed : Int) (random : ℚ) :
    Option Int × ExponentialBackOff :=
  if b.maxElapsedTime ≠ 0 ∧
      b.maxElapsedTime <
        elapsed + getRandomValueFromInterval b.randomizationFactor random b.currentInterval then
    (none, incrementCurrentInterval b)
  else
    (some (getRandomValueFromInterval b.randomizationFactor random b.currentInterval),
      incrementCurrentInterval b)

/-- One observed call to NextBackOff: the elapsed time since Reset at the
moment of the call, and the random draw consumed by the jitter. -/
structure BackoffStep where
  elapsed : Int
  random : ℚ

/-- The sequence of NextBackOff results along a list of calls. -/
def backoffRun (b : ExponentialBackOff) : List BackoffStep → List (Option Int)
  | [] => []
  | s :: rest =>
    (nextBackOff b s.elapsed s.random).1 :: backoffRun (nextBackOff b s.elapsed s.random).2 rest

/-- The pre-jitter current intervals consumed by each call along a run. -/
def backoffIntervals (b : ExponentialBackOff) : List BackoffStep → List Int
  | [] => []
  | s :: rest => b.currentInterval :: backoffIntervals (nextBackOff b s.elapsed s.random).2 rest

/-- States reachable from newBackoff: a nonnegative current interval capped
by the 10s ceiling, with the ceiling, multiplier and randomization factor
as newBackoff and the library default fix them. -/
def GoodState (b : ExponentialBackOff) : Prop :=
  0 ≤ b.currentInterval ∧ b.currentInterval ≤ b.maxInterval ∧
    b.maxInterval = 10000000000 ∧ b.multiplier = 11/10 ∧ b.randomizationFactor = 1/2

end backoff

namespace telegram

/-- Embeds the middleware values the sources construct: recovery.New over a
backoff instance, retry.New over a maximum attempt count, the simple flood
waiter, the rate limiter with its period in nanoseconds and burst, and
opaque caller-supplied middlewares. -/
inductive Middleware
  | recovery (b : backoff.ExponentialBackOff)
  | retry (maxAttempts : Nat)
  | floodwait
  | ratelimit (every : Int) (burst : Nat)
  | custom (id : Nat)
deriving DecidableEq

/-- Session storage: an opaque caller-provided backend, or the in-memory
store session.StorageMemory holding a stored blob. -/
inductive SessionStorage
  | real (id : Nat)
  | memory (data : String)
deriving DecidableEq

/-- The clock: the system clock, or a network-corrected clock built by
clock.NewNTP. -/
inductive Clock
  | system
  | ntp (id : Nat)
deriving DecidableEq

/-- The dialer: proxy.Direct, or a proxied dialer built by netutil.NewProxy. -/
inductive Dialer
  | direct
  | proxied (id : Nat)
deriving DecidableEq

/-- Embeds the telegram.Options fields that core/tclient/tclient.go sets.
The ReconnectionBackoff field is a closure returning
newBackoff(o.ReconnectTimeout); the backoff value it produces is stored.
The Device and Logger fields are identification and logging configuration
and are omitted. -/
structure Options where
  dialer : Dialer
  reconnectionBackoff : backoff.ExponentialBackOff
  updateHandler : Option Nat
  sessionStorage : SessionStorage
  retryInterval : Int
  maxRetries : Int
  dialTimeout : Int
  middlewares : List Middleware
  clock : Clock
deriving DecidableEq

/-- The client value telegram.NewClient builds from the credentials and the
assembled options; NewClient never fails and never returns a nil pointer,
so New wraps the built client in Except.ok. -/
structure Client where
  appID : Int
  appHash : String
  opts : Options
deriving DecidableEq

/-- An RPC invoker wrapped by zero or more middleware stages. -/
inductive Invoker
  | base
  | wrap (m : Middleware) (inner : Invoker)
deriving DecidableEq

/-- Embeds chainMiddlewares from gotd/td (external dependency): the loop
walks the middleware list from the last element to the first, wrapping the
invoker at each step, so element 0 of the list becomes the outermost
wrapper. -/
def chainMiddlewares (inv : Invoker) : List Middleware → Invoker
  | [] => inv
  | m :: rest => Invoker.wrap m (chainMiddlewares inv rest)

end telegram

namespace tclient

/-- Embeds Options from core/tclient/tclient.go. The UpdateHandler is an
opaque handle. -/
structure Options where
  AppID : Int
  AppHash : String
  Session : telegram.SessionStorage
  Middlewares : List telegram.Middleware
  Proxy : String
  NTP : String
  ReconnectTimeout : Int
  Test : String
  UpdateHandler : Option Nat
deriving DecidableEq

/-- Embeds newBackoff from core/tclient/tclient.go: the library defaults
with Multiplier 1.1, MaxElapsedTime set to the timeout argument and
MaxInterval 10s. -/
def newBackoff (timeout : Int) : backoff.ExponentialBackOff :=
  { backoff.NewExponentialBackOff with
      multiplier := 11/10, maxElapsedTime := timeout, maxInterval := 10000000000 }

/-- Embeds NewDefaultMiddlewares from core/tclient/tclient.go (the context
argument carries cancellation and logging only and is dropped). -/
def NewDefaultMiddlewares (timeout : Int) : List telegram.Middleware :=
  [telegram.Middleware.recovery (newBackoff timeout),
    telegram.Middleware.retry 5,
    telegram.Middleware.floodwait]

/-- The clock selection in New: the system clock, or for a nonempty NTP
address the result of clock.NewNTP (an external constructor, passed in as
the ntpClock argument), with a failure wrapped as by errors.Wrap. -/
def processClock (ntpClock : String → Except String telegram.Clock) (ntp : String) :
    Except String telegram.Clock :=
  if ntp = "" then Except.ok telegram.Clock.system
  else
    match ntpClock ntp with
    | Except.error e => Except.error ("create network clock: " ++ e)
    | Except.ok c => Except.ok c

/-- The dialer selection in New: proxy.Direct, or for a nonempty proxy URL
the dialer built by netutil.NewProxy (an external constructor, passed in as
the newProxy argument), with a failure wrapped as by errors.Wrap. -/
def processProxy (newProxy : String → Except String telegram.Dialer) (p : String) :
    Except String telegram.Dialer :=
  if p = "" then Except.ok telegram.Dialer.direct
  else
    match newProxy p with
    | Except.error e => Except.error ("get dialer: " ++ e)
    | Except.ok d => Except.ok d

/-- Embeds the session.StorageMemory StoreSession call in New: on a freshly
created non-nil store gotd copies the blob into the store and returns nil,
so the call always succeeds with the in-memory storage holding the blob. -/
def storeSession (data : String) : Except String telegram.SessionStorage :=
  Except.ok (telegram.SessionStorage.memory data)

/-- The telegram.Options literal assembled by New before the test-session
hook: the selected dialer and clock, the reconnection backoff closure over
the reconnect timeout, the caller session storage and update handler, a 5s
retry interval, unlimited retries, a 10s dial timeout, and the default
middlewares followed by the caller-supplied ones. -/
def baseOptions (o : Options) (tclock : telegram.Clock) (dialer : telegram.Dialer) :
    telegram.Options :=
  { dialer := dialer,
    reconnectionBackoff := newBackoff o.ReconnectTimeout,
    updateHandler := o.UpdateHandler,
    sessionStorage := o.Session,
    retryInterval := 5000000000,
    maxRetries := -1,
    dialTimeout := 10000000000,
    middlewares := NewDefaultMiddlewares o.ReconnectTimeout ++ o.Middlewares,
    clock := tclock }

/-- Embeds New from core/tclient/tclient.go: clock and proxy processing
with early error returns, the telegram.Options assembly, and the
test-session override that hooks the session storage with the seeded
in-memory store and appends the rate-limit middleware
(rate.Every(100ms) = period 100000000 ns, burst 5). -/
def New (ntpClock : String → Except String telegram.Clock)
    (newProxy : String → Except String telegram.Dialer) (o : Options) :
    Except String telegram.Client :=
  match processClock ntpClock o.NTP with
  | Except.error e => Except.error e
  | Except.ok tclock =>
    match processProxy newProxy o.Proxy with
    | Except.error e => Except.error e
    | Except.ok dialer =>
      if o.Test = "" then
        Except.ok { appID := o.AppID, appHash := o.AppHash, opts := baseOptions o tclock dialer }
      else
        match storeSession o.Test with
        | Except.error e => Except.error ("store test session: " ++ e)
        | Except.ok storage =>
          Except.ok
            { appID := o.AppID,
              appHash := o.AppHash,
              opts :=
                { baseOptions o tclock dialer with
                    sessionStorage := storage,
                    middlewares :=
                      (baseOptions o tclock dialer).middlewares ++
                        [telegram.Middleware.ratelimit 100000000 5] } }

/-- The authorization status returned by the client Auth().Status call. -/
structure AuthStatus where
  Authorized : Bool
deriving DecidableEq

/-- Embeds RunWithAuth from core/tclient/tclient.go. client.Run (gotd,
external) runs the given body on the connected client and returns the body
result, and is modelled as doing exactly that. statusResult is the outcome
of the status check against the session backend, and f stands for the
caller-supplied task, given by its result. The Bool component instruments
whether the task was invoked. -/
def RunWithAuth (statusResult : Except String AuthStatus) (f : Except String Unit) :
    Except String Unit × Bool :=
  match statusResult with
  | Except.error e => (Except.error e, false)
  | Except.ok status =>
    if !status.Authorized then (Except.error ("not authorized. please login first"), false)
    else (f, true)

end tclient

namespace retry

/-- RPC outcomes as the error taxonomy of the spec classifies them: success,
a transient failure (network or timeout), or a protocol-level rejection. -/
inductive RPCOutcome
  | ok
  | transient
  | protocolRejected
deriving DecidableEq

/-- Modelled from the spec: the retry middleware implementation
(core/middlewares/retry, constructed as retry.New(5) in
NewDefaultMiddlewares) is not under src/. Spec 4.4: the retry stage
re-issues a failed individual RPC up to a fixed count only for failures
classified as transient, never for failures classified as protocol-level
rejections. run call i fuel performs up to fuel attempts starting at
attempt index i, where call j gives the outcome of underlying attempt j;
it returns the final outcome together with the total number of underlying
attempts performed. -/
def run (call : Nat → RPCOutcome) (i : Nat) : Nat → RPCOutcome × Nat
  | 0 => (RPCOutcome.transient, i)
  | fuel + 1 =>
    match call i with
    | RPCOutcome.transient =>
      if fuel = 0 then (RPCOutcome.transient, i + 1) else run call (i + 1) fuel
    | r => (r, i + 1)

end retry

namespace filterMap

/-- Modelled from the spec: filterMap.New (pkg/filterMap, not under src/)
builds the include or exclude extension-filter set from the given filters,
applying the normalizer to each entry; membership and emptiness of the
resulting list mirror the Go map operations used by walk. -/
def New (filters : List String) (fn : String → String) : List String :=
  filters.map fn

end filterMap

namespace strings

/-- Embeds strings.HasPrefix from the Go standard library (under an
abbreviated name): whether pre is a leading substring of s. -/
def hasPre (s pre : String) : Bool :=
  pre.data.isPrefixOf s.data

end strings

namespace fsutil

/-- Modelled from the spec: fsutil.AddPrefixDot (core/util/fsutil, not
under src/) normalizes an extension filter to its dot-prefixed form. -/
def AddPrefixDot (ext : String) : String :=
  if strings.hasPre ext (".") then ext else "." ++ ext

end fsutil

namespace filepath

/-- Scan used by Ext: walk the characters from the end of the path and
return the suffix from the final dot of the final path element, stopping
at a path separator. -/
def extRev : List Char → List Char → String
  | [], _ => ""
  | c :: rest, acc =>
    if c = '/' then ""
    else if c = '.' then String.mk (c :: acc)
    else extRev rest (c :: acc)

/-- Embeds path/filepath Ext from the Go standard library: the suffix
beginning at the final dot in the final slash-separated element of path,
empty when there is no dot. -/
def Ext (path : String) : String :=
  extRev path.data.reverse []

end filepath

namespace strings

/-- Embeds strings.TrimRight from the Go standard library: removes the
trailing characters of s that are contained in the cutset. The cutset is a
set of characters, not a suffix. -/
def TrimRight (s cutset : String) : String :=
  String.mk (s.data.reverse.dropWhile (fun c => cutset.data.contains c)).reverse

end strings

namespace up

/-- Embeds the file struct consumed by the upload walker: the file path and
the companion thumbnail path, empty when absent (the Go zero value). -/
structure file where
  file : String
  thumb : String
deriving DecidableEq

/-- One entry handed to the WalkDir callback: its path and whether it is a
directory. The enumeration itself is Go standard library behavior and is a
parameter of the model. -/
structure DirEntry where
  path : String
  isDir : Bool
deriving DecidableEq

/-- The body of the WalkDir callback in walk (src/unnamed/part_000): skip
directories, apply the include filter and then the exclude filter on the
path extension, and attach the companion thumbnail exactly when the
candidate path built with strings.TrimRight exists. fsFiles is the set of
existing files consulted by fsutil.PathExists. -/
def walkEntry (thumbExt : String) (fsFiles : List String)
    (includesMap excludesMap : List String) (e : DirEntry) : Option file :=
  if e.isDir then none
  else if 0 < includesMap.length ∧ filepath.Ext e.path ∉ includesMap then none
  else if 0 < excludesMap.length ∧ filepath.Ext e.path ∈ excludesMap then none
  else
    if strings.TrimRight e.path (filepath.Ext e.path) ++ thumbExt ∈ fsFiles then
      some { file := e.path, thumb := strings.TrimRight e.path (filepath.Ext e.path) ++ thumbExt }
    else
      some { file := e.path, thumb := "" }

/-- Embeds walk from src/unnamed/part_000. consts.UploadThumbExt
(pkg/consts, not under src/) is abstracted as the thumbExt parameter; tree
gives the WalkDir enumeration under each root (traversal errors are not
modelled) and fsFiles the existing files. The exclude map always receives
the thumbnail extension in addition to the normalized caller excludes. -/
def walk (thumbExt : String) (fsFiles : List String) (tree : String → List DirEntry)
    (paths includes excludes : List String) : List file :=
  ((paths.map tree).flatten).filterMap
    (walkEntry thumbExt fsFiles (filterMap.New includes fsutil.AddPrefixDot)
      (thumbExt :: filterMap.New excludes fsutil.AddPrefixDot))

/-- The companion-thumbnail path as the specification describes it: the
emitted file path with its extension replaced by the thumbnail extension. -/
def specThumbPath (thumbExt path : String) : String :=
  String.mk (path.data.take (path.data.length - (filepath.Ext path).data.length)) ++ thumbExt

end up

namespace extension

/-- A line printed through the extension command helpers info, succ and
fail, tagged with its padding level (the ANSI coloring is presentation only
and omitted). -/
inductive LogLine
  | info (padding : Nat) (msg : String)
  | succ (padding : Nat) (msg : String)
  | fail (padding : Nat) (msg : String)
deriving DecidableEq

/-- Scan used by normalizeExtName: the characters after the first slash,
none when there is no slash (the strings.IndexRune test). -/
def afterFirstSlash : List Char → Option (List Char)
  | [] => none
  | c :: rest => if c = '/' then some rest else afterFirstSlash rest

/-- Embeds normalizeExtName from the extension command file: drop
everything through the first slash, then prepend the extension-name marker
when it is missing. extensions.Prefix (pkg/extensions, not under src/) is
abstracted as the pfx parameter; the color wrapping is presentation only
and omitted. -/
def normalizeExtName (pfx n : String) : String :=
  match afterFirstSlash n.data with
  | some rest =>
    if strings.hasPre (String.mk rest) pfx then String.mk rest else pfx ++ String.mk rest
  | none =>
    if strings.hasPre n pfx then n else pfx ++ n

/-- Embeds Install from the extension command file. emInstall gives the
result of the collaborator call em.Install(ctx, target, force), with none
standing for nil. Returns the printed lines and the returned error value,
none standing for nil. -/
def Install (pfx : String) (emInstall : String → Bool → Option String)
    (target : String) (force : Bool) : List LogLine × Option String :=
  match emInstall target force with
  | some e =>
    ([LogLine.info 0 ("installing extension " ++ normalizeExtName pfx target ++ "..."),
      LogLine.fail 0
        ("install extension " ++ normalizeExtName pfx target ++ " failed: " ++ e)], none)
  | none =>
    ([LogLine.info 0 ("installing extension " ++ normalizeExtName pfx target ++ "..."),
      LogLine.succ 0 ("extension " ++ normalizeExtName pfx target ++ " installed")], none)

end extension

namespace tclient

/-- Fixture options for the construction witnesses: direct connection,
system clock, no test token, one caller-supplied middleware. -/
def optsPlain : Options :=
  { AppID := 1, AppHash := ("h"), Session := telegram.SessionStorage.real 0,
    Middlewares := [telegram.Middleware.custom 7], Proxy := "", NTP := "",
    ReconnectTimeout := 60000000000, Test := "", UpdateHandler := none }

/-- Fixture options for the construction witnesses: as optsPlain but with
the test-session token t. -/
def optsTest : Options :=
  { AppID := 1, AppHash := ("h"), Session := telegram.SessionStorage.real 0,
    Middlewares := [telegram.Middleware.custom 7], Proxy := "", NTP := "",
    ReconnectTimeout := 60000000000, Test := ("t"), UpdateHandler := none }

/-- The client New builds from optsPlain. -/
def clientPlain : telegram.Client :=
  { appID := optsPlain.AppID, appHash := optsPlain.AppHash,
    opts := baseOptions optsPlain telegram.Clock.system telegram.Dialer.direct }

/-- The client New builds from optsTest. -/
def clientTest : telegram.Client :=
  { appID := optsTest.AppID, appHash := optsTest.AppHash,
    opts :=
      { baseOptions optsTest telegram.Clock.system telegram.Dialer.direct with
          sessionStorage := telegram.SessionStorage.memory optsTest.Test,
          middlewares :=
            (baseOptions optsTest telegram.Clock.system telegram.Dialer.direct).middlewares ++
              [telegram.Middleware.ratelimit 100000000 5] } }

end tclient

/- Theorems. -/

/-- C1: for every session backend whose authorization status check reports
not-authorized, RunWithAuth returns the NotAuthorizedError
(not authorized. please login first) and never invokes the caller-supplied
task f. -/
theorem RunWithAuth_blocks_unauthorized (status : tclient.AuthStatus)
    (f : Except String Unit) (h : status.Authorized = false) :
    tclient.RunWithAuth (Except.ok status) f =
      (Except.error ("not authorized. please login first"), false) := by
  unfold tclient.RunWithAuth
  simp [h]

/-- Witness for C1 at a concrete not-authorized status and task. -/
theorem RunWithAuth_blocks_unauthorized_witness :
    tclient.RunWithAuth (Except.ok { Authorized := false }) (Except.ok ()) =
      (Except.error ("not authorized. please login first"), false) :=
  RunWithAuth_blocks_unauthorized { Authorized := false } (Except.ok ()) rfl

/-- C8: when the extension manager Install call fails, the Install command
logs the failure and returns nil, and Install returns a non-nil error for
no input at all: both branches return nil. -/
theorem Install_swallows_error :
    (∀ (pfx : String) (emInstall : String → Bool → Option String) (target : String)
        (force : Bool) (e : String), emInstall target force = some e →
      (extension.Install pfx emInstall target force).2 = none ∧
        extension.LogLine.fail 0
            ("install extension " ++ extension.normalizeExtName pfx target ++ " failed: " ++ e) ∈
          (extension.Install pfx emInstall target force).1) ∧
    (∀ (pfx : String) (emInstall : String → Bool → Option String) (target : String)
        (force : Bool), (extension.Install pfx emInstall target force).2 = none) := by
  constructor
  · intro pfx emInstall target force e he
    unfold extension.Install
    rw [he]
    simp
  · intro pfx emInstall target force
    unfold extension.Install
    cases emInstall target force <;> simp

/-- Witness for C8 at a concrete failing manager call. -/
theorem Install_swallows_error_witness :
    (extension.Install ("tdl-") (fun _ _ => some ("boom")) ("foo") false).2 = none ∧
      extension.LogLine.fail 0
          ("install extension " ++ extension.normalizeExtName ("tdl-") ("foo") ++
            " failed: " ++ "boom") ∈
        (extension.Install ("tdl-") (fun _ _ => some ("boom")) ("foo") false).1 :=
  Install_swallows_error.1 ("tdl-") (fun _ _ => some ("boom")) ("foo") false ("boom") rfl

/-- C9: for every combination of filesystem, tree, paths, includes and
excludes, walk never emits a file whose extension is the upload-thumbnail
extension: the thumbnail extension is always in the exclusion set, even
when the excludes list is empty or the includes list contains it. -/
theorem walk_never_emits_thumb_ext (thumbExt : String) (fsFiles : List String)
    (tree : String → List up.DirEntry) (paths includes excludes : List String)
    (f : up.file) (hf : f ∈ up.walk thumbExt fsFiles tree paths includes excludes) :
    filepath.Ext f.file ≠ thumbExt := by
  unfold up.walk at hf
  rw [List.mem_filterMap] at hf
  obtain ⟨e, _, he⟩ := hf
  unfold up.walkEntry at he
  split at he
  · exact Option.noConfusion he
  split at he
  · exact Option.noConfusion he
  split at he
  · exact Option.noConfusion he
  rename_i hexcl
  push_neg at hexcl
  have hnotmem :
      filepath.Ext e.path ∉ thumbExt :: filterMap.New excludes fsutil.AddPrefixDot := by
    apply hexcl
    simp
  have hfile : f.file = e.path := by
    split at he <;> cases he <;> rfl
  rw [hfile]
  intro hEq
  exact hnotmem (by rw [hEq]; exact List.mem_cons_self _ _)

/-- Witness for C9: a concrete walk emitting a png while the includes list
names the thumbnail extension and the excludes list is empty. -/
theorem walk_never_emits_thumb_ext_witness :
    up.file.mk ("a.png") ("") ∈
        up.walk (".thumb") [] (fun _ => [up.DirEntry.mk ("a.png") false]) [("root")]
          [(".png"), (".thumb")] [] ∧
      filepath.Ext ("a.png") ≠ (".thumb") :=
  ⟨by decide,
    walk_never_emits_thumb_ext (".thumb") [] (fun _ => [up.DirEntry.mk ("a.png") false])
      [("root")] [(".png"), (".thumb")] [] (up.file.mk ("a.png") ("")) (by decide)⟩

/-- C7: evaluation of walk at the failing input. The file snap.png is
emitted; the companion path the claim describes, snap.png with its
extension replaced by the thumbnail extension, is snap.thumb and exists in
the filesystem, yet the emitted pair carries an empty thumbnail, because
the code builds the candidate with strings.TrimRight, which strips all
trailing characters drawn from the extension character set and yields
sna.thumb. -/
theorem walk_thumb_companion_missed :
    up.specThumbPath (".thumb") ("snap.png") = ("snap.thumb") ∧
      ("snap.thumb") ∈ [("snap.png"), ("snap.thumb")] ∧
      strings.TrimRight ("snap.png") (filepath.Ext ("snap.png")) = ("sna") ∧
      up.walk (".thumb") [("snap.png"), ("snap.thumb")]
          (fun _ => [up.DirEntry.mk ("snap.png") false]) [("root")] [] [] =
        [up.file.mk ("snap.png") ("")] := by
  decide

/-- Helper: whatever client New returns with Except.ok carries the
credentials, the assembled middleware list, and the session storage
selected by the test-session hook. -/
theorem New_ok_shape (ntpClock : String → Except String telegram.Clock)
    (newProxy : String → Except String telegram.Dialer) (o : tclient.Options)
    (c : telegram.Client) (h : tclient.New ntpClock newProxy o = Except.ok c) :
    c.appID = o.AppID ∧ c.appHash = o.AppHash ∧
      c.opts.middlewares =
        tclient.NewDefaultMiddlewares o.ReconnectTimeout ++ o.Middlewares ++
          (if o.Test = "" then [] else [telegram.Middleware.ratelimit 100000000 5]) ∧
      c.opts.sessionStorage =
        (if o.Test = "" then o.Session else telegram.SessionStorage.memory o.Test) := by
  unfold tclient.New at h
  split at h
  · exact Except.noConfusion h
  split at h
  · exact Except.noConfusion h
  split at h
  · rename_i hTest
    injection h with h2
    subst h2
    simp [tclient.baseOptions, hTest]
  · rename_i hTest
    unfold tclient.storeSession at h
    injection h with h2
    subst h2
    simp [tclient.baseOptions, hTest]

/-- C10: for every Options value whose NTP, Proxy and Test fields are all
empty, New returns a client and a nil error; no validation of the app id,
app hash, session backend, middlewares, reconnect timeout or update
handler happens at construction time. -/
theorem New_no_construction_validation (ntpClock : String → Except String telegram.Clock)
    (newProxy : String → Except String telegram.Dialer) (o : tclient.Options)
    (h1 : o.NTP = "") (h2 : o.Proxy = "") (h3 : o.Test = "") :
    ∃ c : telegram.Client, tclient.New ntpClock newProxy o = Except.ok c := by
  refine ⟨{ appID := o.AppID, appHash := o.AppHash,
            opts := tclient.baseOptions o telegram.Clock.system telegram.Dialer.direct }, ?_⟩
  unfold tclient.New tclient.processClock tclient.processProxy
  rw [h1, h2]
  simp [h3]

/-- Witness for C10 at the concrete optsPlain fixture, through failing
external constructors that are never consulted. -/
theorem New_no_construction_validation_witness :
    ∃ c : telegram.Client,
      tclient.New (fun _ => Except.error ("no ntp")) (fun _ => Except.error ("no proxy"))
          tclient.optsPlain =
        Except.ok c :=
  New_no_construction_validation (fun _ => Except.error ("no ntp"))
    (fun _ => Except.error ("no proxy")) tclient.optsPlain rfl rfl rfl

/-- C3: for every Options value with a nonempty Test token, a client built
by New stores the in-memory session storage pre-seeded with that token in
place of the configured backend, and its middleware list includes the
rate-limit stage at one call per 100ms with burst 5. -/
theorem New_test_session_override (ntpClock : String → Except String telegram.Clock)
    (newProxy : String → Except String telegram.Dialer) (o : tclient.Options)
    (c : telegram.Client) (hT : o.Test ≠ "")
    (h : tclient.New ntpClock newProxy o = Except.ok c) :
    c.opts.sessionStorage = telegram.SessionStorage.memory o.Test ∧
      telegram.Middleware.ratelimit 100000000 5 ∈ c.opts.middlewares := by
  obtain ⟨-, -, hmw, hss⟩ := New_ok_shape ntpClock newProxy o c h
  rw [if_neg hT] at hss
  refine ⟨hss, ?_⟩
  rw [hmw, if_neg hT]
  simp

/-- Witness for C3 at the concrete optsTest fixture carrying the test
token t. -/
theorem New_test_session_override_witness :
    tclient.optsTest.Test ≠ "" ∧
      tclient.clientTest.opts.sessionStorage =
        telegram.SessionStorage.memory tclient.optsTest.Test ∧
      telegram.Middleware.ratelimit 100000000 5 ∈ tclient.clientTest.opts.middlewares :=
  ⟨by decide,
    New_test_session_override (fun _ => Except.error ("no ntp"))
      (fun _ => Except.error ("no proxy")) tclient.optsTest tclient.clientTest
      (by decide) rfl⟩

/-- C5: for every client built by New, the middleware list starts with the
recovery stage, then the retry stage, then the flood-wait stage, with the
caller-supplied middlewares strictly after the three defaults, so that
under the outermost-first chaining of gotd the recovery stage wraps all
other stages and the retry stage wraps the flood-wait handling. -/
theorem New_middleware_order (ntpClock : String → Except String telegram.Clock)
    (newProxy : String → Except String telegram.Dialer) (o : tclient.Options)
    (c : telegram.Client) (h : tclient.New ntpClock newProxy o = Except.ok c) :
    c.opts.middlewares =
        [telegram.Middleware.recovery (tclient.newBackoff o.ReconnectTimeout),
          telegram.Middleware.retry 5, telegram.Middleware.floodwait] ++
          (o.Middlewares ++
            (if o.Test = "" then [] else [telegram.Middleware.ratelimit 100000000 5])) ∧
      ∀ inv : telegram.Invoker,
        telegram.chainMiddlewares inv c.opts.middlewares =
          telegram.Invoker.wrap
            (telegram.Middleware.recovery (tclient.newBackoff o.ReconnectTimeout))
            (telegram.Invoker.wrap (telegram.Middleware.retry 5)
              (telegram.Invoker.wrap telegram.Middleware.floodwait
                (telegram.chainMiddlewares inv
                  (o.Middlewares ++
                    (if o.Test = "" then []
                      else [telegram.Middleware.ratelimit 100000000 5]))))) := by
  obtain ⟨-, -, hmw, -⟩ := New_ok_shape ntpClock newProxy o c h
  have hmw2 : c.opts.middlewares =
      [telegram.Middleware.recovery (tclient.newBackoff o.ReconnectTimeout),
        telegram.Middleware.retry 5, telegram.Middleware.floodwait] ++
        (o.Middlewares ++
          (if o.Test = "" then [] else [telegram.Middleware.ratelimit 100000000 5])) := by
    rw [hmw]
    simp [tclient.NewDefaultMiddlewares]
  refine ⟨hmw2, fun inv => ?_⟩
  rw [hmw2]
  simp [telegram.chainMiddlewares]

/-- Witness for C5 at the concrete optsPlain fixture with one
caller-supplied middleware and no test token: the chained invoker wraps
recovery around retry around flood-wait around the caller middleware. -/
theorem New_middleware_order_witness :
    telegram.chainMiddlewares telegram.Invoker.base tclient.clientPlain.opts.middlewares =
      telegram.Invoker.wrap (telegram.Middleware.recovery (tclient.newBackoff 60000000000))
        (telegram.Invoker.wrap (telegram.Middleware.retry 5)
          (telegram.Invoker.wrap telegram.Middleware.floodwait
            (telegram.Invoker.wrap (telegram.Middleware.custom 7) telegram.Invoker.base))) := by
  have h := (New_middleware_order (fun _ => Except.error ("no ntp"))
      (fun _ => Except.error ("no proxy")) tclient.optsPlain tclient.clientPlain rfl).2
        telegram.Invoker.base
  exact h

/-- C6: the retry stage of the default chain is configured with the fixed
count 5; it re-issues only failures classified as transient and never
protocol-level rejections, which return after a single attempt; a
transient failure on attempts 1 through 4 followed by success on attempt 5
yields overall success with exactly 5 underlying attempts; and the number
of attempts never exceeds the budget. -/
theorem retry_stage_semantics :
    (∀ timeout : Int, telegram.Middleware.retry 5 ∈ tclient.NewDefaultMiddlewares timeout) ∧
      (∀ call : Nat → retry.RPCOutcome, (∀ j, j < 4 → call j = retry.RPCOutcome.transient) →
        call 4 = retry.RPCOutcome.ok → retry.run call 0 5 = (retry.RPCOutcome.ok, 5)) ∧
      (∀ (call : Nat → retry.RPCOutcome) (i fuel : Nat),
        call i = retry.RPCOutcome.protocolRejected →
          retry.run call i (fuel + 1) = (retry.RPCOutcome.protocolRejected, i + 1)) ∧
      (∀ (call : Nat → retry.RPCOutcome) (i fuel : Nat), (retry.run call i fuel).2 ≤ i + fuel) := by
  refine ⟨?_, ?_, ?_, ?_⟩
  · intro timeout
    simp [tclient.NewDefaultMiddlewares]
  · intro call h14 h5
    have e0 : call 0 = retry.RPCOutcome.transient := h14 0 (by norm_num)
    have e1 : call 1 = retry.RPCOutcome.transient := h14 1 (by norm_num)
    have e2 : call 2 = retry.RPCOutcome.transient := h14 2 (by norm_num)
    have e3 : call 3 = retry.RPCOutcome.transient := h14 3 (by norm_num)
    show retry.run call 0 (4 + 1) = (retry.RPCOutcome.ok, 5)
    rw [retry.run, e0]
    show retry.run call 1 (3 + 1) = (retry.RPCOutcome.ok, 5)
    rw [retry.run, e1]
    show retry.run call 2 (2 + 1) = (retry.RPCOutcome.ok, 5)
    rw [retry.run, e2]
    show retry.run call 3 (1 + 1) = (retry.RPCOutcome.ok, 5)
    rw [retry.run, e3]
    show retry.run call 4 (0 + 1) = (retry.RPCOutcome.ok, 5)
    rw [retry.run, h5]
  · intro call i fuel hc
    rw [retry.run, hc]
  · intro call i fuel
    induction fuel generalizing i with
    | zero => simp [retry.run]
    | succ n ih =>
      rw [retry.run]
      cases hc : call i with
      | transient =>
        show (if n = 0 then (retry.RPCOutcome.transient, i + 1)
            else retry.run call (i + 1) n).2 ≤ i + (n + 1)
        by_cases hn : n = 0
        · rw [if_pos hn]
          omega
        · rw [if_neg hn]
          have h2 := ih (i + 1)
          omega
      | ok =>
        show (retry.RPCOutcome.ok, i + 1).2 ≤ i + (n + 1)
        omega
      | protocolRejected =>
        show (retry.RPCOutcome.protocolRejected, i + 1).2 ≤ i + (n + 1)
        omega

/-- Witness for C6: a concrete call sequence failing transiently on the
first four attempts and succeeding on the fifth, run under the budget 5. -/
theorem retry_stage_semantics_witness :
    retry.run (fun j => if j < 4 then retry.RPCOutcome.transient else retry.RPCOutcome.ok) 0 5 =
      (retry.RPCOutcome.ok, 5) :=
  retry_stage_semantics.2.1 (fun j => if j < 4 then retry.RPCOutcome.transient
      else retry.RPCOutcome.ok)
    (fun j hj => by simp [hj]) (by simp)

/-- Helper: the state after a NextBackOff call is the incremented state,
whichever branch was taken. -/
theorem nextBackOff_snd (b : backoff.ExponentialBackOff) (e : Int) (r : ℚ) :
    (backoff.nextBackOff b e r).2 = backoff.incrementCurrentInterval b := by
  unfold backoff.nextBackOff
  split <;> rfl

/-- Helper: a NextBackOff call emits Stop or the drawn jittered value. -/
theorem nextBackOff_fst_eq (b : backoff.ExponentialBackOff) (e : Int) (r : ℚ) :
    (backoff.nextBackOff b e r).1 = none ∨
      (backoff.nextBackOff b e r).1 =
        some (backoff.getRandomValueFromInterval b.randomizationFactor r b.currentInterval) := by
  unfold backoff.nextBackOff
  split
  · exact Or.inl rfl
  · exact Or.inr rfl

/-- Helper: incrementing touches only the current interval. -/
theorem increment_keeps (b : backoff.ExponentialBackOff) :
    (backoff.incrementCurrentInterval b).maxInterval = b.maxInterval ∧
      (backoff.incrementCurrentInterval b).multiplier = b.multiplier ∧
      (backoff.incrementCurrentInterval b).randomizationFactor = b.randomizationFactor ∧
      (backoff.incrementCurrentInterval b).maxElapsedTime = b.maxElapsedTime := by
  unfold backoff.incrementCurrentInterval
  split <;> exact ⟨rfl, rfl, rfl, rfl⟩

/-- Helper: newBackoff starts in a good state for every timeout. -/
theorem goodState_newBackoff (timeout : Int) : backoff.GoodState (tclient.newBackoff timeout) := by
  unfold backoff.GoodState tclient.newBackoff backoff.NewExponentialBackOff
  norm_num

/-- Helper: incrementing preserves the good-state invariant; in the growth
branch the strict bound below the capped quotient keeps the floor under the
ceiling. -/
theorem goodState_increment (b : backoff.ExponentialBackOff) (hb : backoff.GoodState b) :
    backoff.GoodState (backoff.incrementCurrentInterval b) := by
  obtain ⟨h0, hle, hmax, hmul, hrf⟩ := hb
  unfold backoff.incrementCurrentInterval
  split
  · exact ⟨by rw [hmax]; norm_num, le_refl _, hmax, hmul, hrf⟩
  · rename_i hlt
    push_neg at hlt
    have hq0 : (0 : ℚ) ≤ (b.currentInterval : ℚ) := by exact_mod_cast h0
    have hpos : (0 : ℚ) < b.multiplier := by rw [hmul]; norm_num
    have hmulle : (b.currentInterval : ℚ) * b.multiplier < (b.maxInterval : ℚ) :=
      (lt_div_iff₀ hpos).mp hlt
    refine ⟨?_, ?_, hmax, hmul, hrf⟩
    · exact Int.le_floor.mpr (by rw [hmul]; push_cast; nlinarith)
    · exact le_of_lt (Int.floor_lt.mpr (by push_cast; exact hmulle))

/-- Helper: the current interval never decreases across an increment. -/
theorem increment_mono (b : backoff.ExponentialBackOff) (hb : backoff.GoodState b) :
    b.currentInterval ≤ (backoff.incrementCurrentInterval b).currentInterval := by
  obtain ⟨h0, hle, hmax, hmul, hrf⟩ := hb
  unfold backoff.incrementCurrentInterval
  split
  · exact hle
  · refine Int.le_floor.mpr ?_
    rw [hmul]
    have hq0 : (0 : ℚ) ≤ (b.currentInterval : ℚ) := by exact_mod_cast h0
    nlinarith

/-- Helper: with the default randomization factor one half and a draw in
the unit interval, the jittered value over a capped current interval is at
most one and a half times the 10s ceiling plus one nanosecond. -/
theorem getRandom_le_of_le (r : ℚ) (cur : Int) (h0 : 0 ≤ cur) (hcap : cur ≤ 10000000000)
    (hr0 : 0 ≤ r) (hr1 : r ≤ 1) :
    backoff.getRandomValueFromInterval (1/2) r cur ≤ 15000000001 := by
  unfold backoff.getRandomValueFromInterval
  rw [if_neg (by norm_num)]
  rw [show (15000000001 : Int) = ⌊((15000000001 : Int) : ℚ)⌋ from (Int.floor_intCast _).symm]
  apply Int.floor_le_floor
  have hq0 : (0 : ℚ) ≤ (cur : ℚ) := by exact_mod_cast h0
  have hqc : (cur : ℚ) ≤ 10000000000 := by exact_mod_cast hcap
  have h3 : r * ((cur : ℚ) + 1) ≤ (cur : ℚ) + 1 := by nlinarith
  push_cast
  nlinarith

/-- Helper: with the default randomization factor one half, a nonnegative
draw over a nonnegative current interval yields a nonnegative value. -/
theorem getRandom_nonneg (r : ℚ) (cur : Int) (h0 : 0 ≤ cur) (hr0 : 0 ≤ r) :
    0 ≤ backoff.getRandomValueFromInterval (1/2) r cur := by
  unfold backoff.getRandomValueFromInterval
  rw [if_neg (by norm_num)]
  apply Int.le_floor.mpr
  have hq0 : (0 : ℚ) ≤ (cur : ℚ) := by exact_mod_cast h0
  have h3 : 0 ≤ r * ((cur : ℚ) + 1) := by nlinarith
  push_cast
  nlinarith

/-- Helper: along any run from a good state, the pre-jitter current
intervals are non-decreasing and capped by the 10s ceiling, and every
emitted duration is at most one and a half times the ceiling plus one
nanosecond. -/
theorem backoff_good_run (steps : List backoff.BackoffStep) :
    ∀ b : backoff.ExponentialBackOff, backoff.GoodState b →
      (∀ s ∈ steps, 0 ≤ s.random ∧ s.random ≤ 1) →
      List.Chain' (fun x y => x ≤ y) (backoff.backoffIntervals b steps) ∧
        (∀ i ∈ backoff.backoffIntervals b steps, i ≤ 10000000000) ∧
        (∀ d : Int, some d ∈ backoff.backoffRun b steps → d ≤ 15000000001) := by
  induction steps with
  | nil =>
    intro b _ _
    refine ⟨by simp [backoff.backoffIntervals], by simp [backoff.backoffIntervals], ?_⟩
    intro d hd
    simp [backoff.backoffRun] at hd
  | cons s rest ih =>
    intro b hb hr
    have hg2 : backoff.GoodState (backoff.nextBackOff b s.elapsed s.random).2 := by
      rw [nextBackOff_snd]
      exact goodState_increment b hb
    have hrrest : ∀ t ∈ rest, 0 ≤ t.random ∧ t.random ≤ 1 := fun t ht =>
      hr t (List.mem_cons_of_mem _ ht)
    obtain ⟨ihchain, ihcap, ihrun⟩ := ih (backoff.nextBackOff b s.elapsed s.random).2 hg2 hrrest
    obtain ⟨h0, hle, hmax, hmul, hrf⟩ := hb
    refine ⟨?_, ?_, ?_⟩
    · simp only [backoff.backoffIntervals]
      rw [List.chain'_cons']
      refine ⟨?_, ihchain⟩
      intro y hy
      cases rest with
      | nil => simp [backoff.backoffIntervals] at hy
      | cons t ts =>
        simp only [backoff.backoffIntervals, List.head?] at hy
        have hy2 : y = (backoff.nextBackOff b s.elapsed s.random).2.currentInterval := by
          exact (Option.mem_some_iff.mp hy).symm
        rw [hy2, nextBackOff_snd]
        exact increment_mono b ⟨h0, hle, hmax, hmul, hrf⟩
    · intro i hi
      simp only [backoff.backoffIntervals] at hi
      rcases List.mem_cons.mp hi with h | h
      · subst h
        omega
      · exact ihcap i h
    · intro d hd
      simp only [backoff.backoffRun] at hd
      rcases List.mem_cons.mp hd with h | h
      · rcases nextBackOff_fst_eq b s.elapsed s.random with hn | hs
        · rw [hn] at h
          exact Option.noConfusion h
        · rw [hs] at h
          have hd2 : d = backoff.getRandomValueFromInterval b.randomizationFactor s.random
              b.currentInterval := by
            injection h
          obtain ⟨hr0, hr1⟩ := hr s (List.mem_cons_self s rest)
          rw [hd2, hrf]
          exact getRandom_le_of_le s.random b.currentInterval h0 (by omega) hr0 hr1
      · exact ihrun d h

/-- C2 (amended): for every timeout handed to newBackoff and every run with
draws from the unit interval, the pre-jitter current-interval sequence is
non-decreasing and never exceeds the 10s ceiling, and every emitted
duration is at most 15000000001 ns, that is one and a half times the
ceiling plus one nanosecond; the emitted durations themselves are jittered
and need not be non-decreasing nor bounded by the ceiling. -/
theorem backoff_intervals_monotone_capped (timeout : Int) (steps : List backoff.BackoffStep)
    (hr : ∀ s ∈ steps, 0 ≤ s.random ∧ s.random ≤ 1) :
    List.Chain' (fun x y => x ≤ y)
        (backoff.backoffIntervals (tclient.newBackoff timeout) steps) ∧
      (∀ i ∈ backoff.backoffIntervals (tclient.newBackoff timeout) steps, i ≤ 10000000000) ∧
      (∀ d : Int, some d ∈ backoff.backoffRun (tclient.newBackoff timeout) steps →
        d ≤ 15000000001) :=
  backoff_good_run steps (tclient.newBackoff timeout) (goodState_newBackoff timeout) hr

/-- Witness for the amended C2 at a concrete run of one call with the
median draw. -/
theorem backoff_intervals_monotone_capped_witness :
    (∀ s ∈ [backoff.BackoffStep.mk 0 (1/2)], 0 ≤ s.random ∧ s.random ≤ 1) ∧
      (List.Chain' (fun x y => x ≤ y)
          (backoff.backoffIntervals (tclient.newBackoff 1000000000)
            [backoff.BackoffStep.mk 0 (1/2)]) ∧
        (∀ i ∈ backoff.backoffIntervals (tclient.newBackoff 1000000000)
            [backoff.BackoffStep.mk 0 (1/2)], i ≤ 10000000000) ∧
        (∀ d : Int, some d ∈ backoff.backoffRun (tclient.newBackoff 1000000000)
            [backoff.BackoffStep.mk 0 (1/2)] → d ≤ 15000000001)) :=
  ⟨by
      intro s hs
      simp only [List.mem_singleton] at hs
      subst hs
      constructor <;> norm_num,
    backoff_intervals_monotone_capped 1000000000 [backoff.BackoffStep.mk 0 (1/2)]
      (by
        intro s hs
        simp only [List.mem_singleton] at hs
        subst hs
        constructor <;> norm_num)⟩

/-- Helper: along any run from a good state with a nonzero budget, once
every call happens with elapsed time beyond the budget, every call emits
Stop. -/
theorem backoff_stop_run (steps : List backoff.BackoffStep) :
    ∀ b : backoff.ExponentialBackOff, backoff.GoodState b → b.maxElapsedTime ≠ 0 →
      (∀ s ∈ steps, 0 ≤ s.random) → (∀ s ∈ steps, b.maxElapsedTime < s.elapsed) →
      ∀ o ∈ backoff.backoffRun b steps, o = none := by
  induction steps with
  | nil =>
    intro b _ _ _ _ o ho
    simp [backoff.backoffRun] at ho
  | cons s rest ih =>
    intro b hb hne hr hel o ho
    simp only [backoff.backoffRun] at ho
    rcases List.mem_cons.mp ho with h | h
    · subst h
      obtain ⟨h0, hle, hmax, hmul, hrf⟩ := hb
      unfold backoff.nextBackOff
      rw [if_pos]
      constructor
      · exact hne
      · have hnn : 0 ≤ backoff.getRandomValueFromInterval b.randomizationFactor s.random
            b.currentInterval := by
          rw [hrf]
          exact getRandom_nonneg s.random b.currentInterval h0 (hr s (List.mem_cons_self s rest))
        have helt := hel s (List.mem_cons_self s rest)
        omega
    · refine ih (backoff.nextBackOff b s.elapsed s.random).2 ?_ ?_ ?_ ?_ o h
      · rw [nextBackOff_snd]
        exact goodState_increment b hb
      · rw [nextBackOff_snd, (increment_keeps b).2.2.2]
        exact hne
      · intro t ht
        exact hr t (List.mem_cons_of_mem _ ht)
      · intro t ht
        rw [nextBackOff_snd, (increment_keeps b).2.2.2]
        exact hel t (List.mem_cons_of_mem _ ht)

/-- C4 (amended): for every nonzero budget handed to newBackoff, a call
emits Stop precisely when the elapsed time plus the freshly drawn jittered
interval exceeds the budget; in particular once the elapsed time itself
exceeds the budget every call emits Stop, but Stop can also fire while
elapsed is still within the budget, and a later call with a smaller draw
can emit a duration again after a Stop. -/
theorem backoff_stop_after_budget (timeout : Int) (steps : List backoff.BackoffStep)
    (ht : timeout ≠ 0) (hr : ∀ s ∈ steps, 0 ≤ s.random)
    (hel : ∀ s ∈ steps, timeout < s.elapsed) :
    ∀ o ∈ backoff.backoffRun (tclient.newBackoff timeout) steps, o = none :=
  backoff_stop_run steps (tclient.newBackoff timeout) (goodState_newBackoff timeout) ht hr hel

/-- Witness for the amended C4: with a 5ns budget and a call at elapsed
10ns, the run emits Stop. -/
theorem backoff_stop_after_budget_witness :
    backoff.backoffRun (tclient.newBackoff 5) [backoff.BackoffStep.mk 10 0] = [none] := by
  have h := backoff_stop_after_budget 5 [backoff.BackoffStep.mk 10 0] (by norm_num)
    (by
      intro s hs
      simp only [List.mem_singleton] at hs
      subst hs
      norm_num)
    (by
      intro s hs
      simp only [List.mem_singleton] at hs
      subst hs
      norm_num)
  have h1 : (backoff.nextBackOff (tclient.newBackoff 5) 10 0).1 ∈
      backoff.backoffRun (tclient.newBackoff 5) [backoff.BackoffStep.mk 10 0] :=
    List.mem_cons_self _ _
  have h2 := h _ h1
  show (backoff.nextBackOff (tclient.newBackoff 5) 10 0).1 :: ([] : List (Option Int)) = [none]
  rw [h2]

/-- Counterexample to C2 as stated: under the default randomization factor
one half, the first call of newBackoff with a one-hour budget and a maximal
draw emits 750000001 ns while the second call with a minimal draw emits
275000000 ns, so the emitted durations are not non-decreasing. -/
theorem backoff_emitted_not_monotone :
    backoff.backoffRun (tclient.newBackoff 3600000000000)
        [backoff.BackoffStep.mk 0 1, backoff.BackoffStep.mk 750000001 0] =
      [some 750000001, some 275000000] ∧
      ¬ List.Chain' (fun x y => x ≤ y) [(750000001 : Int), 275000000] := by
  have h1 : backoff.nextBackOff (tclient.newBackoff 3600000000000) 0 1 =
      (some 750000001,
        { initialInterval := 500000000, randomizationFactor := 1/2, multiplier := 11/10,
          maxInterval := 10000000000, maxElapsedTime := 3600000000000,
          currentInterval := 550000000 }) := by
    unfold backoff.nextBackOff backoff.getRandomValueFromInterval
      backoff.incrementCurrentInterval tclient.newBackoff backoff.NewExponentialBackOff
    norm_num
  have h2 : backoff.nextBackOff
      { initialInterval := 500000000, randomizationFactor := 1/2, multiplier := 11/10,
        maxInterval := 10000000000, maxElapsedTime := 3600000000000,
        currentInterval := 550000000 } 750000001 0 =
      (some 275000000,
        { initialInterval := 500000000, randomizationFactor := 1/2, multiplier := 11/10,
          maxInterval := 10000000000, maxElapsedTime := 3600000000000,
          currentInterval := 605000000 }) := by
    unfold backoff.nextBackOff backoff.getRandomValueFromInterval
      backoff.incrementCurrentInterval
    norm_num
  refine ⟨?_, fun hch => absurd (List.chain'_cons.mp hch).1 (by decide)⟩
  simp only [backoff.backoffRun, h1, h2]

/-- Counterexample to C4 as stated: with a 1s budget, the first call at
elapsed 400ms (within the budget) draws 750000001 ns and emits Stop because
elapsed plus the draw overshoots the budget, and the next call at elapsed
400000100 ns with a minimal draw emits the duration 275000000 ns again
after the Stop. -/
theorem backoff_stop_spurious_then_duration :
    backoff.backoffRun (tclient.newBackoff 1000000000)
        [backoff.BackoffStep.mk 400000000 1, backoff.BackoffStep.mk 400000100 0] =
      [none, some 275000000] ∧
      (400000000 : Int) ≤ 1000000000 := by
  have h1 : backoff.nextBackOff (tclient.newBackoff 1000000000) 400000000 1 =
      (none,
        { initialInterval := 500000000, randomizationFactor := 1/2, multiplier := 11/10,
          maxInterval := 10000000000, maxElapsedTime := 1000000000,
          currentInterval := 550000000 }) := by
    unfold backoff.nextBackOff backoff.getRandomValueFromInterval
      backoff.incrementCurrentInterval tclient.newBackoff backoff.NewExponentialBackOff
    norm_num
  have h2 : backoff.nextBackOff
      { initialInterval := 500000000, randomizationFactor := 1/2, multiplier := 11/10,
        maxInterval := 10000000000, maxElapsedTime := 1000000000,
        currentInterval := 550000000 } 400000100 0 =
      (some 275000000,
        { initialInterval := 500000000, randomizationFactor := 1/2, multiplier := 11/10,
          maxInterval := 10000000000, maxElapsedTime := 1000000000,
          currentInterval := 605000000 }) := by
    unfold backoff.nextBackOff backoff.getRandomValueFromInterval
      backoff.incrementCurrentInterval
    norm_num
  refine ⟨?_, by decide⟩
  simp only [backoff.backoffRun, h1, h2]
